import Mathlib

/-!
Verification of the round/session state machine of the TAG word-guessing
game (a React/TypeScript application).  The definitions below are shallow
embeddings of the functions in `src/App.tsx` and
`src/components/GamePlay.tsx`; JavaScript numbers holding millisecond
timestamps, scores and durations are modelled as `Int`, `Math.ceil(x / 1000)`
and `Math.floor(x / 1000)` on integer numerators as ceiling and floor
division.  The module `src/utils/game.ts` (with `checkWinCondition`,
`shuffleArray`, `getAvailableWords`) is not among the provided sources; the
pieces of it that the claims need are modelled from the specification and
are marked as such in their doc comments.
-/

namespace TAG

/-- JS `Math.ceil(a / b)` for an integer numerator `a` and a positive integer
denominator `b`: the ceiling of the rational `a / b`, computed as the negated
floor division of the negation. -/
def jsCeilDiv (a b : Int) : Int := -(Int.fdiv (-a) b)

/-- JS `Math.floor(a / b)` for an integer numerator `a` and a positive integer
denominator `b`: floor division. -/
def jsFloorDiv (a b : Int) : Int := Int.fdiv a b

/-- Translation of the remaining-time computation used throughout
`GamePlay.tsx` (the `remainingTime` render expression, the timer poll, and the
capture in `stopRound`):
`Math.max(0, Math.ceil((settings.roundTimer * 1000 - (now - startTime)) / 1000))`. -/
def remainingTime (startTime roundTimer now : Int) : Int :=
  max 0 (jsCeilDiv (roundTimer * 1000 - (now - startTime)) 1000)

/-- Translation of the start-instant reconstruction in `resumeRound`
(`GamePlay.tsx`): `Date.now() - (settings.roundTimer - remainingSeconds) * 1000`. -/
def resumeStartTime (remainingSeconds roundTimer now : Int) : Int :=
  now - (roundTimer - remainingSeconds) * 1000

/-- Translation of `checkForCheating` in `GamePlay.tsx`: with no recorded
round start the check answers `false`; otherwise it flags exactly when the
count of guessed words exceeds `Math.floor((Date.now() - start) / 1000)`. -/
def checkForCheating (roundStartTimeRef : Option Int) (now : Int)
    (guessedWordsCount : Nat) : Bool :=
  match roundStartTimeRef with
  | none => false
  | some start => decide ((guessedWordsCount : Int) > jsFloorDiv (now - start) 1000)

/-- Ceiling division by a nonzero denominator cancels an exact multiple. -/
theorem jsCeilDiv_mul_cancel (r : Int) : jsCeilDiv (r * 1000) 1000 = r := by
  unfold jsCeilDiv
  rw [neg_mul_eq_neg_mul, Int.mul_fdiv_cancel _ (by norm_num)]
  ring

/-- Claim C5: pausing at instant `t` (capturing the remaining seconds via the
`remainingTime` formula) and resuming at the same instant `t` (reconstructing
the start instant via `resumeStartTime`) is a no-op on remaining time, for
every start instant, duration and instant. -/
theorem pause_resume_remaining_noop (s d t : Int) :
    remainingTime (resumeStartTime (remainingTime s d t) d t) d t
      = remainingTime s d t := by
  set r := remainingTime s d t with hr
  have hr0 : 0 ≤ r := by
    rw [hr]; unfold remainingTime; exact le_max_left 0 _
  have harg : d * 1000 - (t - resumeStartTime r d t) = r * 1000 := by
    unfold resumeStartTime; ring
  show max 0 (jsCeilDiv (d * 1000 - (t - resumeStartTime r d t)) 1000) = r
  rw [harg, jsCeilDiv_mul_cancel]
  exact max_eq_right hr0

/-- Claim C6: the cheating check (with a recorded round start) answers `true`
exactly when the guessed-word count exceeds the floored elapsed seconds; in
particular it never flags at count zero once the round has started (elapsed
time nonnegative), and it flags at count `5` with `2` elapsed seconds. -/
theorem cheat_check_formula :
    (∀ (start now : Int) (g : Nat),
      checkForCheating (some start) now g
        = decide ((g : Int) > jsFloorDiv (now - start) 1000))
    ∧ (∀ start now : Int, start ≤ now → checkForCheating (some start) now 0 = false)
    ∧ (∀ start : Int, checkForCheating (some start) (start + 2000) 5 = true) := by
  refine ⟨fun start now g => rfl, ?_, ?_⟩
  · intro start now h
    have hd : 0 ≤ jsFloorDiv (now - start) 1000 :=
      Int.fdiv_nonneg (by omega) (by norm_num)
    simp only [checkForCheating, decide_eq_false_iff_not]
    push_cast
    omega
  · intro start
    have harg : start + 2000 - start = (2000 : Int) := by ring
    simp only [checkForCheating, harg]
    decide

/-- Closed instance of `cheat_check_formula`: at round start `0`, a count of
`0` after five elapsed seconds is not flagged, and a count of `5` after two
elapsed seconds is flagged. -/
theorem cheat_check_formula_witness :
    checkForCheating (some 0) 5000 0 = false
    ∧ checkForCheating (some 0) 2000 5 = true :=
  ⟨cheat_check_formula.2.1 0 5000 (by norm_num),
   cheat_check_formula.2.2 0⟩

/-- Translation of the `GameSettings` interface in `src/types.ts`; the theme
object is represented by its word list, the only part of it the session core
reads. -/
structure GameSettings where
  themeWords : List String
  selectedTeams : List String
  pointsRequired : Int
  roundTimer : Int
  skipPenalty : Bool

/-- Translation of the `GameState` interface in `src/types.ts`; the
`teamScores` record is modelled as a total function from team names to
scores (read and updated only at keys in `selectedTeams`). -/
structure GameState where
  settings : GameSettings
  currentTeamIndex : Nat
  currentRound : Int
  teamScores : String → Int
  wordsUsed : List String
  currentWordIndex : Nat
  roundStartTime : Option Int
  roundEndTime : Option Int
  isRoundActive : Bool
  isPaused : Bool
  roundResults : List (String × Bool)

/-- The team whose turn is active:
`gameState.settings.selectedTeams[gameState.currentTeamIndex]` as inlined in
`App.tsx`; an out-of-range index (which JS would render as `undefined`) is
mapped to the empty string. -/
def currentTeamOf (g : GameState) : String :=
  g.settings.selectedTeams.getD g.currentTeamIndex ""

/-- Modelled from the spec: `evaluateWin(teamScores, target) -> winners`,
"any team whose score >= target is a winner; multiple teams can satisfy this
in the same evaluation (returns all qualifying teams, not just one)".  The
implementing function `checkWinCondition` lives in `src/utils/game.ts`, which
is not among the provided sources; its caller in `GamePlay.tsx`
(`targetWinners.length > 0`, `winners.join`) fixes its result type as the
array of all qualifying teams. -/
def checkWinCondition (g : GameState) : List String :=
  g.settings.selectedTeams.filter
    (fun t => decide (g.settings.pointsRequired ≤ g.teamScores t))

/-- JS truthiness of an array value: an object, in particular an array (even
an empty one), is always truthy.  `handleRoundResultsConfirm` in `App.tsx`
branches on `if (winner)` where `winner` is the array returned by
`checkWinCondition`, so the test never fails. -/
def jsTruthy (_winner : List String) : Bool := true

/-- Translation of the `results.forEach` scoring loop that appears verbatim
in both `handleRoundEnd` and `handleRoundResultsConfirm` in `App.tsx`:
starting from `init`, add `1` per guessed result and subtract `1` per
unguessed result exactly when the skip penalty is enabled. -/
def foldResults (skipPenalty : Bool) (init : Int)
    (results : List (String × Bool)) : Int :=
  results.foldl
    (fun acc r => if r.2 then acc + 1 else if skipPenalty then acc - 1 else acc)
    init

/-- The two `App.tsx` screens the round-end handlers can select via
`setScreen`. -/
inductive AppScreen where
  | gamePlay
  | roundResults
  deriving DecidableEq

/-- Result of a round-end handler in `App.tsx`: the updated `GameState`, the
screen passed to `setScreen`, and whether `storage.clearGameState()` was
called (the observable marker of the immediate game-over path). -/
structure HandlerOut where
  state : GameState
  screen : AppScreen
  clearedStorage : Bool

/-- Translation of `handleRoundEnd` in `App.tsx`: compute the potential score
of the acting team from the pending results; if it reaches the target, apply
it, append the round words to `wordsUsed`, close the round and clear the
persisted state (the winner screen is then shown by `GamePlay`); otherwise
store the results and move to the confirmation screen.  `now` stands for
`Date.now()`. -/
def handleRoundEnd (g : GameState) (results : List (String × Bool))
    (now : Int) : HandlerOut :=
  let currentTeam := currentTeamOf g
  let currentScore := g.teamScores currentTeam
  let potentialScore := foldResults g.settings.skipPenalty currentScore results
  if g.settings.pointsRequired ≤ potentialScore then
    { state := { g with
        teamScores := fun t => if t = currentTeam then potentialScore
                               else g.teamScores t,
        wordsUsed := g.wordsUsed ++ results.map (fun r => r.1),
        isRoundActive := false,
        roundEndTime := some now },
      screen := AppScreen.gamePlay,
      clearedStorage := true }
  else
    { state := { g with roundResults := results },
      screen := AppScreen.roundResults,
      clearedStorage := false }

/-- Translation of `handleRoundResultsConfirm` in `App.tsx`: apply the
confirmed delta to the acting team, append the words to `wordsUsed`, then
branch on `if (winner)` where `winner` is the winners array — see `jsTruthy`:
the test is JS truthiness of an array and always succeeds, so the
turn-rotation branch below is unreachable. -/
def handleRoundResultsConfirm (g : GameState)
    (finalResults : List (String × Bool)) : HandlerOut :=
  let currentTeam := currentTeamOf g
  let scoreChange := foldResults g.settings.skipPenalty 0 finalResults
  let g1 := { g with
    teamScores := fun t => if t = currentTeam then g.teamScores t + scoreChange
                           else g.teamScores t,
    wordsUsed := g.wordsUsed ++ finalResults.map (fun r => r.1) }
  let winner := checkWinCondition g1
  if jsTruthy winner then
    { state := g1, screen := AppScreen.gamePlay, clearedStorage := true }
  else
    let nextIndex := (g1.currentTeamIndex + 1) % g1.settings.selectedTeams.length
    { state := { g1 with
        currentTeamIndex := nextIndex,
        currentRound := if nextIndex = 0 then g1.currentRound + 1
                        else g1.currentRound,
        roundResults := [],
        isRoundActive := false,
        roundStartTime := none,
        currentWordIndex := 0 },
      screen := AppScreen.gamePlay,
      clearedStorage := false }

/-- A fresh two-team session fixture with scores `a` and `b` for teams `A`
and `B` and target `target`. -/
def mkStateAB (a b target : Int) : GameState :=
  { settings :=
      { themeWords := [], selectedTeams := ["A", "B"],
        pointsRequired := target, roundTimer := 60, skipPenalty := false },
    currentTeamIndex := 0, currentRound := 1,
    teamScores := fun t => if t = "A" then a else if t = "B" then b else 0,
    wordsUsed := [], currentWordIndex := 0,
    roundStartTime := none, roundEndTime := none,
    isRoundActive := false, isPaused := false, roundResults := [] }

/-- A fresh session fixture with teams `T1` and `T2`, both at score `0`,
target `10`, no skip penalty. -/
def gT1T2 : GameState :=
  { settings :=
      { themeWords := [], selectedTeams := ["T1", "T2"],
        pointsRequired := 10, roundTimer := 30, skipPenalty := false },
    currentTeamIndex := 0, currentRound := 1,
    teamScores := fun _ => 0,
    wordsUsed := [], currentWordIndex := 0,
    roundStartTime := none, roundEndTime := none,
    isRoundActive := false, isPaused := false, roundResults := [] }

/-- Like `gT1T2` but with a non-empty pending `roundResults`, used to observe
whether a confirm transition clears it. -/
def gNoWin : GameState :=
  { gT1T2 with roundResults := [("x", true)] }

/-- The fold over results equals the count of guessed entries minus, when the
skip penalty is enabled, the count of unguessed entries. -/
theorem foldResults_eq (skipPenalty : Bool) (results : List (String × Bool)) :
    ∀ init : Int,
      foldResults skipPenalty init results
        = init + ((results.filter (fun r => r.2)).length : Int)
          - (if skipPenalty
             then ((results.filter (fun r => !r.2)).length : Int) else 0) := by
  induction results with
  | nil => intro init; cases skipPenalty <;> simp [foldResults]
  | cons a rest ih =>
    intro init
    have hstep : foldResults skipPenalty init (a :: rest)
        = foldResults skipPenalty
            (if a.2 then init + 1 else if skipPenalty then init - 1 else init)
            rest := by
      cases h2 : a.2 <;> simp [foldResults, h2]
    rw [hstep, ih]
    cases h2 : a.2 <;> cases hsp : skipPenalty <;>
      simp [h2, hsp] <;> omega

/-- Claim C1: win evaluation returns the set of all teams whose score is at
least the target — membership in the winner list is equivalent to being a
selected team with score at least the target; with scores `A:18, B:20` and
target `20` the winners are exactly `B`, and with `A:20, B:20` both teams are
returned. -/
theorem evaluateWin_returns_all_qualifying :
    (∀ (g : GameState) (t : String),
      t ∈ checkWinCondition g
        ↔ t ∈ g.settings.selectedTeams
          ∧ g.settings.pointsRequired ≤ g.teamScores t)
    ∧ checkWinCondition (mkStateAB 18 20 20) = ["B"]
    ∧ checkWinCondition (mkStateAB 20 20 20) = ["A", "B"] := by
  refine ⟨?_, by decide, by decide⟩
  intro g t
  simp [checkWinCondition, List.mem_filter]

/-- Claim C2: the score delta a confirm applies to the acting team equals the
number of guessed results minus (when the skip penalty is enabled) the number
of unguessed results, applied as one update to exactly that team — every
other key of the score record is unchanged; on `[(w1, true), (w2, false)]`
the delta is `+1` without the penalty and `0` with it. -/
theorem confirm_applies_atomic_delta :
    (∀ (g : GameState) (results : List (String × Bool)) (t : String),
      (handleRoundResultsConfirm g results).state.teamScores t
        = if t = currentTeamOf g
          then g.teamScores t
            + (((results.filter (fun r => r.2)).length : Int)
               - (if g.settings.skipPenalty
                  then ((results.filter (fun r => !r.2)).length : Int) else 0))
          else g.teamScores t)
    ∧ foldResults false 0 [("w1", true), ("w2", false)] = 1
    ∧ foldResults true 0 [("w1", true), ("w2", false)] = 0 := by
  refine ⟨?_, by decide, by decide⟩
  intro g results t
  have hfold := foldResults_eq g.settings.skipPenalty results 0
  simp only [handleRoundResultsConfirm, jsTruthy, if_true]
  rw [hfold]
  by_cases ht : t = currentTeamOf g <;> simp [ht]

/-- Claim C3: when a confirm leaves a non-empty winner set, the session shows
the game-over screen at once — the persisted state is cleared, the screen is
the play screen (which renders the winner view), and neither
`currentTeamIndex` nor `currentRound` is advanced; concretely, in a two-team
game at target `10` where `T1` confirms ten guessed words in its first round,
the winner set is exactly `T1` and the turn never rotates to `T2`. -/
theorem confirm_with_winners_ends_game :
    (∀ (g : GameState) (results : List (String × Bool)),
      checkWinCondition (handleRoundResultsConfirm g results).state ≠ [] →
        (handleRoundResultsConfirm g results).state.currentTeamIndex
            = g.currentTeamIndex
        ∧ (handleRoundResultsConfirm g results).state.currentRound
            = g.currentRound
        ∧ (handleRoundResultsConfirm g results).clearedStorage = true
        ∧ (handleRoundResultsConfirm g results).screen = AppScreen.gamePlay)
    ∧ checkWinCondition
        (handleRoundResultsConfirm gT1T2 (List.replicate 10 ("w", true))).state
        = ["T1"]
    ∧ (handleRoundResultsConfirm gT1T2
        (List.replicate 10 ("w", true))).state.currentTeamIndex = 0
    ∧ (handleRoundResultsConfirm gT1T2
        (List.replicate 10 ("w", true))).state.currentRound = 1
    ∧ (handleRoundResultsConfirm gT1T2
        (List.replicate 10 ("w", true))).clearedStorage = true := by
  refine ⟨?_, by decide, by decide, by decide, by decide⟩
  intro g results _
  simp [handleRoundResultsConfirm, jsTruthy]

/-- Closed instance of `confirm_with_winners_ends_game`: the two-team fixture
confirming ten guessed words has a non-empty winner set, and the transition
keeps the team index and round unchanged while clearing the stored state. -/
theorem confirm_with_winners_ends_game_witness :
    (handleRoundResultsConfirm gT1T2
        (List.replicate 10 ("w", true))).state.currentTeamIndex
      = gT1T2.currentTeamIndex
    ∧ (handleRoundResultsConfirm gT1T2
        (List.replicate 10 ("w", true))).state.currentRound
      = gT1T2.currentRound
    ∧ (handleRoundResultsConfirm gT1T2
        (List.replicate 10 ("w", true))).clearedStorage = true
    ∧ (handleRoundResultsConfirm gT1T2
        (List.replicate 10 ("w", true))).screen = AppScreen.gamePlay :=
  confirm_with_winners_ends_game.1 gT1T2 (List.replicate 10 ("w", true))
    (by decide)

/-- Claim C4 is contradicted by the code: because `checkWinCondition` returns
an array and a JS array is truthy even when empty, `if (winner)` in
`handleRoundResultsConfirm` always takes the game-over branch.  For every
state and result list the handler leaves `currentTeamIndex` and
`currentRound` unchanged and does not clear `roundResults`; at the concrete
no-winner input below the winner set is empty, yet the index stays `0`
instead of advancing to `1`, the pending results are not cleared, and the
stored session is wiped as if the game were over. -/
theorem confirm_never_rotates :
    (∀ (g : GameState) (results : List (String × Bool)),
      (handleRoundResultsConfirm g results).state.currentTeamIndex
          = g.currentTeamIndex
      ∧ (handleRoundResultsConfirm g results).state.currentRound
          = g.currentRound
      ∧ (handleRoundResultsConfirm g results).state.roundResults
          = g.roundResults)
    ∧ checkWinCondition
        (handleRoundResultsConfirm gNoWin [("w", false)]).state = []
    ∧ (handleRoundResultsConfirm gNoWin [("w", false)]).state.currentTeamIndex
        = 0
    ∧ (handleRoundResultsConfirm gNoWin [("w", false)]).state.roundResults
        = [("x", true)]
    ∧ (handleRoundResultsConfirm gNoWin [("w", false)]).clearedStorage
        = true := by
  refine ⟨?_, by decide, by decide, by decide, by decide⟩
  intro g results
  simp [handleRoundResultsConfirm, jsTruthy]

/-- Claim C10: `handleRoundEnd` ends the game immediately when the pending
results would raise the acting team to the target — the score is applied, the
round words are appended to `wordsUsed`, the round is closed and the stored
session cleared, and the play screen (not the confirmation screen) is shown;
the confirmation screen is selected exactly when the potential score stays
below the target. -/
theorem roundEnd_win_bypasses_confirmation :
    ∀ (g : GameState) (results : List (String × Bool)) (now : Int),
      (g.settings.pointsRequired
          ≤ foldResults g.settings.skipPenalty
              (g.teamScores (currentTeamOf g)) results →
        (handleRoundEnd g results now).screen = AppScreen.gamePlay
        ∧ (handleRoundEnd g results now).clearedStorage = true
        ∧ (handleRoundEnd g results now).state.teamScores (currentTeamOf g)
            = foldResults g.settings.skipPenalty
                (g.teamScores (currentTeamOf g)) results
        ∧ (handleRoundEnd g results now).state.wordsUsed
            = g.wordsUsed ++ results.map (fun r => r.1)
        ∧ (handleRoundEnd g results now).state.isRoundActive = false
        ∧ (handleRoundEnd g results now).state.roundEndTime = some now)
      ∧ ((handleRoundEnd g results now).screen = AppScreen.roundResults
          ↔ foldResults g.settings.skipPenalty
              (g.teamScores (currentTeamOf g)) results
            < g.settings.pointsRequired) := by
  intro g results now
  constructor
  · intro hwin
    simp [handleRoundEnd, hwin]
  · by_cases hwin : g.settings.pointsRequired
        ≤ foldResults g.settings.skipPenalty
            (g.teamScores (currentTeamOf g)) results
    · simp only [handleRoundEnd, if_pos hwin]
      constructor
      · intro h; exact absurd h (by simp)
      · intro h; omega
    · simp only [handleRoundEnd, if_neg hwin]
      constructor
      · intro _; omega
      · intro _; trivial

/-- Closed instance of `roundEnd_win_bypasses_confirmation`: on the two-team
fixture, ten guessed words reach the target `10`, so the round-end handler
takes the immediate game-over path and skips the confirmation screen. -/
theorem roundEnd_win_bypasses_confirmation_witness :
    (handleRoundEnd gT1T2 (List.replicate 10 ("w", true)) 0).screen
        = AppScreen.gamePlay
    ∧ (handleRoundEnd gT1T2 (List.replicate 10 ("w", true)) 0).clearedStorage
        = true
    ∧ (handleRoundEnd gT1T2
        (List.replicate 10 ("w", true)) 0).state.teamScores (currentTeamOf gT1T2)
        = foldResults gT1T2.settings.skipPenalty
            (gT1T2.teamScores (currentTeamOf gT1T2))
            (List.replicate 10 ("w", true))
    ∧ (handleRoundEnd gT1T2 (List.replicate 10 ("w", true)) 0).state.wordsUsed
        = gT1T2.wordsUsed
          ++ (List.replicate 10 (("w", true) : String × Bool)).map (fun r => r.1)
    ∧ (handleRoundEnd gT1T2
        (List.replicate 10 ("w", true)) 0).state.isRoundActive = false
    ∧ (handleRoundEnd gT1T2
        (List.replicate 10 ("w", true)) 0).state.roundEndTime = some 0 :=
  (roundEnd_win_bypasses_confirmation gT1T2
    (List.replicate 10 ("w", true)) 0).1 (by decide)

/-- The local component state of `GamePlay.tsx` relevant to round play: the
session state plus the `useState`/`useRef` cells `currentWord`, `roundWords`,
`roundResults` (mirrored by `roundResultsRef`), `pausedRemainingTime`,
`roundPausedOnce`, `cheatingDetected` and `roundStartTimeRef`.  Pure
animation cells (`cardExitX`, `isCardExiting`, `nextWord`) are presentation
only and are not modelled. -/
structure PlayState where
  game : GameState
  currentWord : String
  roundWords : List String
  roundResults : List (String × Bool)
  pausedRemainingTime : Option Int
  roundPausedOnce : Bool
  cheatingDetected : Bool
  roundStartTimeRef : Option Int

/-- Outcome of `endRound` in `GamePlay.tsx`: the new component state, the
results array delivered to `onRoundEnd` (captured from `roundResultsRef`
before anything else), and the timed-out flag. -/
structure RoundEndOut where
  play : PlayState
  delivered : List (String × Bool)
  timedOut : Bool

/-- Translation of `endRound` in `GamePlay.tsx`: capture the current
`roundResultsRef` contents as the delivered results, close the round, stamp
`roundEndTime`, reset the cheating flag and the start-time ref. -/
def endRound (s : PlayState) (now : Int) (timedOut : Bool) : RoundEndOut :=
  { play := { s with
      game := { s.game with isRoundActive := false, roundEndTime := some now },
      cheatingDetected := false,
      roundStartTimeRef := none },
    delivered := s.roundResults,
    timedOut := timedOut }

/-- Translation of `handleWordAction` in `GamePlay.tsx`: with no current word
or with the cheating flag set the action is a no-op; otherwise the resolved
word is appended to `roundResults`, the cheat check runs on the count of
guessed entries, and either the round blocks (cheating), ends (draw order
exhausted — the second component carries the delivered results), or advances
to the next word. -/
def handleWordAction (s : PlayState) (now : Int) (guessed : Bool) :
    PlayState × Option RoundEndOut :=
  if s.currentWord = "" || s.cheatingDetected then (s, none)
  else
    let newResults := s.roundResults ++ [(s.currentWord, guessed)]
    let guessedCount := (newResults.filter (fun r => r.2)).length
    if checkForCheating s.roundStartTimeRef now guessedCount then
      ({ s with roundResults := newResults, cheatingDetected := true,
                currentWord := "" }, none)
    else
      let nextIndex := s.game.currentWordIndex + 1
      if s.roundWords.length ≤ nextIndex then
        let out := endRound { s with roundResults := newResults } now false
        (out.play, some out)
      else
        ({ s with
            roundResults := newResults,
            currentWord := s.roundWords.getD nextIndex "",
            game := { s.game with currentWordIndex := nextIndex } }, none)

/-- Translation of `stopRound` (the pause action) in `GamePlay.tsx`: capture
the remaining time from the current start instant (`roundStartTime || 0`),
reshuffle the unresolved tail of the draw order, show the first reshuffled
word, mark the round as paused once, set `isPaused` and detach the timer.
The `shuffle` argument stands for the `shuffleArray` import from
`src/utils/game.ts` (not among the provided sources; per the spec it is a
uniform-random permutation, so theorems take the permutation property as a
hypothesis). -/
def stopRound (s : PlayState) (now : Int)
    (shuffle : List String → List String) : PlayState :=
  let currentRemaining :=
    remainingTime (s.game.roundStartTime.getD 0) s.game.settings.roundTimer now
  let remainingWords := s.roundWords.drop s.roundResults.length
  let shuffledRemaining := shuffle remainingWords
  let newRoundWords :=
    s.roundWords.take s.roundResults.length ++ shuffledRemaining
  { s with
      pausedRemainingTime := some currentRemaining,
      roundWords := newRoundWords,
      currentWord := shuffledRemaining.headD "",
      roundPausedOnce := true,
      game := { s.game with isPaused := true, roundStartTime := none } }

/-- Translation of `resumeRound` in `GamePlay.tsx`: reconstruct the start
instant from the captured remaining seconds (`pausedRemainingTime || 0`),
clear the pause flag and the captured value. -/
def resumeRound (s : PlayState) (now : Int) : PlayState :=
  let remainingSeconds := s.pausedRemainingTime.getD 0
  let newStartTime :=
    resumeStartTime remainingSeconds s.game.settings.roundTimer now
  { s with
      game := { s.game with
        isPaused := false,
        roundStartTime := some newStartTime },
      pausedRemainingTime := none }

/-- The `disabled` attribute of the pause button in `GamePlay.tsx`:
`cheatingDetected || roundPausedOnce`. -/
def pauseButtonDisabled (s : PlayState) : Bool :=
  s.cheatingDetected || s.roundPausedOnce

/-- Iterated word actions (ignoring any round end they trigger), used to
drive the component model through a sequence of guess/skip resolutions. -/
def stepMany (s : PlayState) (now : Int) (acts : List Bool) : PlayState :=
  acts.foldl (fun st g => (handleWordAction st now g).1) s

/-- A component state at round start over the eight-word draw order
`a … h`: first word shown, no results yet, round active since instant `0`. -/
def c7Round0 : PlayState :=
  { game :=
      { settings :=
          { themeWords := ["a", "b", "c", "d", "e", "f", "g", "h"],
            selectedTeams := ["T1", "T2"],
            pointsRequired := 10, roundTimer := 60, skipPenalty := false },
        currentTeamIndex := 0, currentRound := 1,
        teamScores := fun _ => 0,
        wordsUsed := [], currentWordIndex := 0,
        roundStartTime := some 0, roundEndTime := none,
        isRoundActive := true, isPaused := false, roundResults := [] },
    currentWord := "a",
    roundWords := ["a", "b", "c", "d", "e", "f", "g", "h"],
    roundResults := [],
    pausedRemainingTime := none, roundPausedOnce := false,
    cheatingDetected := false, roundStartTimeRef := some 0 }

/-- A component state representing a round that has already been paused once
and is currently paused: the timer is detached (`roundStartTime = none`), the
captured remaining time is `30` seconds, two of the four words are resolved. -/
def pausedOnceState : PlayState :=
  { game :=
      { settings :=
          { themeWords := ["a", "b", "c", "d"],
            selectedTeams := ["T1", "T2"],
            pointsRequired := 10, roundTimer := 60, skipPenalty := false },
        currentTeamIndex := 0, currentRound := 1,
        teamScores := fun _ => 0,
        wordsUsed := [], currentWordIndex := 2,
        roundStartTime := none, roundEndTime := none,
        isRoundActive := true, isPaused := true, roundResults := [] },
    currentWord := "",
    roundWords := ["a", "b", "c", "d"],
    roundResults := [("a", true), ("b", false)],
    pausedRemainingTime := some 30, roundPausedOnce := true,
    cheatingDetected := false, roundStartTimeRef := some 0 }

/-- Claim C7: a round ended by timer expiry delivers exactly the already
resolved guess/skip actions — `endRound` hands `onRoundEnd` precisely the
accumulated `roundResults`, never the word in progress; concretely, after
seven resolved actions over an eight-word draw order the eighth word `h` is
on display, and a timeout delivers exactly the seven resolved entries, with
`h` not among them. -/
theorem timeout_excludes_inflight_word :
    (∀ (s : PlayState) (now : Int) (timedOut : Bool),
      (endRound s now timedOut).delivered = s.roundResults)
    ∧ (stepMany c7Round0 1000 (List.replicate 7 false)).currentWord = "h"
    ∧ (stepMany c7Round0 1000 (List.replicate 7 false)).roundResults.length = 7
    ∧ (endRound (stepMany c7Round0 1000 (List.replicate 7 false))
        60000 true).delivered.length = 7
    ∧ "h" ∉ (endRound (stepMany c7Round0 1000 (List.replicate 7 false))
        60000 true).delivered.map (fun r => r.1) := by
  refine ⟨fun s now timedOut => rfl, by decide, by decide, by decide, by decide⟩

/-- Claim C8 counterexample: a second pause attempt is not rejected as a
no-op.  `stopRound` has no pause-once or already-paused guard; applied to the
already-paused-once, currently paused state `pausedOnceState` it changes the
state — the captured remaining time of `30` seconds is overwritten with the
value recomputed from the detached (null) start instant. -/
theorem second_pause_not_noop :
    pausedOnceState.roundPausedOnce = true
    ∧ pausedOnceState.game.isPaused = true
    ∧ pausedOnceState.pausedRemainingTime = some 30
    ∧ (stopRound pausedOnceState 120000 (fun l => l)).pausedRemainingTime
        = some 0 := by
  refine ⟨rfl, rfl, rfl, by decide⟩

/-- Claim C8 amended: pause-once is enforced only at the UI level — the pause
button is disabled whenever `roundPausedOnce` (or `cheatingDetected`) is set —
while the core `stopRound` function itself performs no guard: invoked on any
state, including one already paused or already paused once, it
unconditionally re-captures the remaining time from `roundStartTime || 0`,
marks the round paused and paused-once, and reshuffles. -/
theorem pause_once_ui_only :
    (∀ s : PlayState, pauseButtonDisabled { s with roundPausedOnce := true } = true)
    ∧ (∀ (s : PlayState) (now : Int) (shuffle : List String → List String),
        (stopRound s now shuffle).roundPausedOnce = true
        ∧ (stopRound s now shuffle).game.isPaused = true
        ∧ (stopRound s now shuffle).pausedRemainingTime
            = some (remainingTime (s.game.roundStartTime.getD 0)
                s.game.settings.roundTimer now)) := by
  constructor
  · intro s; simp [pauseButtonDisabled]
  · intro s now shuffle
    exact ⟨rfl, rfl, rfl⟩

/-- Claim C9: pausing reshuffles only the unresolved suffix of the draw
order — for every component state and every permutation-producing shuffle,
the first `roundResults.length` entries (the resolved ones) of the new draw
order coincide with the old ones in order and value, and the new draw order
is a permutation of the old one (no word is added or lost). -/
theorem pause_reshuffle_frame :
    ∀ (s : PlayState) (now : Int) (shuffle : List String → List String),
      (∀ l, (shuffle l).Perm l) →
        (stopRound s now shuffle).roundWords.take s.roundResults.length
            = s.roundWords.take s.roundResults.length
        ∧ (stopRound s now shuffle).roundWords.Perm s.roundWords := by
  intro s now shuffle hsh
  constructor
  · show (s.roundWords.take s.roundResults.length
        ++ shuffle (s.roundWords.drop s.roundResults.length)).take
          s.roundResults.length
      = s.roundWords.take s.roundResults.length
    rcases le_or_lt s.roundResults.length s.roundWords.length with hle | hlt
    · rw [List.take_append_eq_append_take, List.take_take, min_self]
      have hlen : (s.roundWords.take s.roundResults.length).length
          = s.roundResults.length := by
        rw [List.length_take]
        exact Nat.min_eq_left hle
      rw [hlen, Nat.sub_self, List.take_zero, List.append_nil]
    · have hdrop : s.roundWords.drop s.roundResults.length = [] :=
        List.drop_eq_nil_of_le (le_of_lt hlt)
      have hnil : shuffle (s.roundWords.drop s.roundResults.length) = [] := by
        rw [hdrop]
        exact List.Perm.eq_nil (hsh [])
      rw [hnil, List.append_nil, List.take_take, min_self]
  · show (s.roundWords.take s.roundResults.length
        ++ shuffle (s.roundWords.drop s.roundResults.length)).Perm s.roundWords
    have h1 : (s.roundWords.take s.roundResults.length
        ++ shuffle (s.roundWords.drop s.roundResults.length)).Perm
          (s.roundWords.take s.roundResults.length
            ++ s.roundWords.drop s.roundResults.length) :=
      List.Perm.append_left _ (hsh _)
    rw [List.take_append_drop] at h1
    exact h1

/-- Closed instance of `pause_reshuffle_frame`: pausing `pausedOnceState`
with reversal as the shuffle keeps the two resolved words `a`, `b` in place
and permutes the whole draw order. -/
theorem pause_reshuffle_frame_witness :
    (stopRound pausedOnceState 120000 List.reverse).roundWords.take
        pausedOnceState.roundResults.length
      = pausedOnceState.roundWords.take pausedOnceState.roundResults.length
    ∧ (stopRound pausedOnceState 120000 List.reverse).roundWords.Perm
        pausedOnceState.roundWords :=
  pause_reshuffle_frame pausedOnceState 120000 List.reverse
    (fun l => List.reverse_perm l)

end TAG
